import Mathlib

/-!
Verification development for the OBS_Random_Media_Source plugin
(`src/plugin-main.cpp`). The C++ source is shallowly embedded here:

* paths and file names are `List Char`;
* the media-extension filter `has_media_ext` and the catalog rebuild
  `update_file_list` are translated directly;
* the spawn pipeline (`spawn_one`, the unit loop of `do_spawn`, and
  `do_spawn` itself) is modelled as explicit state passing over a
  `SpawnState`, with the fallible host calls (`obs_source_create`,
  `obs_scene_add`, the current-scene query) supplied as oracles;
* the transform sampler `apply_random_transform` is modelled over `ℚ`,
  with each `std::uniform_real_distribution` draw represented by a unit
  draw `u ∈ [0,1]` mapped affinely onto the requested interval (the
  support of the distribution);
* the active-item removal in `on_media_ended` (erase–remove idiom on the
  `active_items` vector) is the `unregister` function.
-/

namespace RandomMedia

/-- The allow-list `MEDIA_EXTS` from the source, each entry including the
leading dot, exactly as the C++ vector of strings. -/
def MEDIA_EXTS : List (List Char) :=
  [ ['.', 'm', 'p', '4'], ['.', 'm', 'k', 'v'], ['.', 'a', 'v', 'i'],
    ['.', 'm', 'o', 'v'], ['.', 'w', 'e', 'b', 'm'], ['.', 'f', 'l', 'v'],
    ['.', 'j', 'p', 'g'], ['.', 'j', 'p', 'e', 'g'], ['.', 'p', 'n', 'g'],
    ['.', 'g', 'i', 'f'] ]

/-- C-locale `tolower`: maps `A`–`Z` to `a`–`z`, leaves every other
character unchanged (the `std::transform(..., ::tolower)` call). -/
def asciiToLower (c : Char) : Char :=
  if 'A' ≤ c ∧ c ≤ 'Z' then Char.ofNat (c.toNat + 32) else c

/-- `path.substr(path.find_last_of('.'))`: the suffix of the path starting
at the last `.`, or `none` when the path has no dot
(`find_last_of` returning `npos`). -/
def suffixFromLastDot : List Char → Option (List Char)
  | [] => none
  | c :: cs =>
    match suffixFromLastDot cs with
    | some s => some s
    | none => if c = '.' then some (c :: cs) else none

/-- `has_media_ext` from the source: take the suffix from the last dot,
lower-case it, and test membership in `MEDIA_EXTS`. -/
def has_media_ext (path : List Char) : Bool :=
  match suffixFromLastDot path with
  | none => false
  | some ext => decide (ext.map asciiToLower ∈ MEDIA_EXTS)

/-- One `os_dirent`: a name and the `directory` flag. -/
structure DirEnt where
  d_name : List Char
  directory : Bool
deriving DecidableEq

/-- `update_file_list` from the source as a function of its inputs: the
configured folder, the previous file list (always discarded by the
initial `clear()`), and the directory listing — `none` when `os_opendir`
fails. Each surviving entry contributes the full path
`folder + "/" + d_name`, and is kept when it is not a directory and the
full path passes `has_media_ext`. -/
def update_file_list (folder : List Char) (prev : List (List Char))
    (dir : Option (List DirEnt)) : List (List Char) :=
  -- data->file_list.clear(); the previous list never influences the result
  let _ := prev
  if folder = [] then []
  else
    match dir with
    | none => []
    | some ents =>
      ents.filterMap (fun e =>
        if e.directory then none
        else
          let f := folder ++ '/' :: e.d_name
          if has_media_ext f then some f else none)

/-- the registry update of `on_media_ended`: the erase–remove idiom
`v.erase(std::remove(v.begin(), v.end(), item), v.end())`, which deletes
every occurrence of `item` from the vector and keeps the order of the
rest. -/
def unregister (item : Nat) (v : List Nat) : List Nat :=
  v.filter (fun x => x ≠ item)

/-- The state the spawn pipeline mutates: the `active_items` vector
(items as their unique ids), the `s_uid` counter, the set of
`media_ended` subscriptions attached, and counters of host calls made
(`obs_source_create`, `obs_scene_add`, transform applications). -/
structure SpawnState where
  active_items : List Nat
  uid : Nat
  subscriptions : List Nat
  createCalls : Nat
  addCalls : Nat
  transformCalls : Nat
deriving DecidableEq

/-- One unit of work for `spawn_one`: the file handed to it and the verdicts of the host
oracle for this unit — whether `obs_source_create` returns a
source and whether `obs_scene_add` returns an item. -/
structure UnitReq where
  file : List Char
  createOk : Bool
  addOk : Bool
deriving DecidableEq

/-- The settings fields of `random_media_data` that `do_spawn` and
`spawn_one` read. -/
structure SpawnConfig where
  spawn_count : Int
  max_active : Int
  hide_on_end : Bool
  do_random_transform : Bool
deriving DecidableEq

/-- `spawn_one` from the source. It always bumps `s_uid` and calls
`obs_source_create` (one materialization attempt). If creation fails it
returns with nothing registered; if `obs_scene_add` fails likewise. On
success the item is appended to `active_items`, the random transform is
applied when configured, and a `media_ended` subscription is attached
when `hide_on_end` is set. The `Bool` reports whether this unit
succeeded (reached the scene). -/
def spawn_one (cfg : SpawnConfig) (r : UnitReq) (st : SpawnState) :
    SpawnState × Bool :=
  let uid := st.uid + 1
  let st := { st with uid := uid, createCalls := st.createCalls + 1 }
  if r.createOk = false then (st, false)
  else
    let st := { st with addCalls := st.addCalls + 1 }
    if r.addOk = false then (st, false)
    else
      let st := { st with active_items := st.active_items ++ [uid] }
      let st :=
        if cfg.do_random_transform then
          { st with transformCalls := st.transformCalls + 1 }
        else st
      let st :=
        if cfg.hide_on_end then
          { st with subscriptions := st.subscriptions ++ [uid] }
        else st
      (st, true)

/-- The unit loop of `do_spawn` (`for (int i = 0; i < count; ++i)
spawn_one(...)`), threading the state through the batch and counting the
units that succeeded. -/
def spawn_loop (cfg : SpawnConfig) (reqs : List UnitReq) (st : SpawnState) :
    SpawnState × Nat :=
  match reqs with
  | [] => (st, 0)
  | r :: rest =>
    let p := spawn_one cfg r st
    let q := spawn_loop cfg rest p.1
    (q.1, (if p.2 then 1 else 0) + q.2)

/-- `do_spawn` from the source. Checks, in order: empty file list;
active cap (`active >= max_active` under the mutex); current scene
available. Then runs the unit loop `max(1, spawn_count)` times, each
iteration picking a file uniformly from the list (`picks i` is the raw
random draw, reduced modulo the list length, the range guarantee of
`uniform_int_distribution`) and consulting the host oracle `host i` for
the create/add outcomes of that unit. Returns the final state and the number
of units that succeeded. -/
def do_spawn (cfg : SpawnConfig) (file_list : List (List Char))
    (sceneOk : Bool) (host : Nat → Bool × Bool) (picks : Nat → Nat)
    (st : SpawnState) : SpawnState × Nat :=
  if file_list = [] then (st, 0)
  else if cfg.max_active ≤ (st.active_items.length : Int) then (st, 0)
  else if sceneOk = false then (st, 0)
  else
    let count := (max 1 cfg.spawn_count).toNat
    let reqs := (List.range count).map (fun i =>
      { file := file_list.getD (picks i % file_list.length) []
        createOk := (host i).1
        addOk := (host i).2 : UnitReq })
    spawn_loop cfg reqs st

/-- The configuration fields read by `apply_random_transform`. Position
clamps are C++ `int`s; scale and rotation bounds are modelled over `ℚ`. -/
structure TransformConfig where
  min_x : Int
  min_y : Int
  max_x : Int
  max_y : Int
  min_scale : ℚ
  max_scale : ℚ
  preserve_aspect : Bool
  min_rot : ℚ
  max_rot : ℚ
  disable_rot : Bool

/-- One `uniform_real_distribution(lo, hi)` draw, represented by where in
the interval the generator landed: a unit draw `u ∈ [0,1]` mapped
affinely onto `[lo, hi]`. -/
def draw (lo hi u : ℚ) : ℚ := lo + u * (hi - lo)

/-- The unit draws consumed by one `apply_random_transform` call:
position x, position y, scale x, scale y (used only when aspect is not
preserved), rotation (used only when rotation is enabled). -/
structure Draws where
  ux : ℚ
  uy : ℚ
  us : ℚ
  usy : ℚ
  urot : ℚ

/-- The placement produced by one `apply_random_transform` call.
`rot = none` when `disable_rot` is set and the rotation of the item is left
untouched. -/
structure Placement where
  x : ℚ
  y : ℚ
  sx : ℚ
  sy : ℚ
  rot : Option ℚ

/-- `apply_random_transform` from the source: resolve the position clamp
rectangle (non-positive minimum → 0, non-positive maximum → canvas
extent), swap each axis when min > max; scale bounds are the configured
percentages over 100, swapped when min > max; scale y reuses the scale-x
draw when `preserve_aspect`; rotation bounds are swapped when min > max
and the draw happens only when rotation is enabled. -/
def apply_random_transform (cfg : TransformConfig) (cw ch : ℚ)
    (d : Draws) : Placement :=
  let x0 := if cfg.min_x > 0 then (cfg.min_x : ℚ) else 0
  let y0 := if cfg.min_y > 0 then (cfg.min_y : ℚ) else 0
  let x1 := if cfg.max_x > 0 then (cfg.max_x : ℚ) else cw
  let y1 := if cfg.max_y > 0 then (cfg.max_y : ℚ) else ch
  let xlo := if x0 > x1 then x1 else x0
  let xhi := if x0 > x1 then x0 else x1
  let ylo := if y0 > y1 then y1 else y0
  let yhi := if y0 > y1 then y0 else y1
  let smin := cfg.min_scale / 100
  let smax := cfg.max_scale / 100
  let slo := if smin > smax then smax else smin
  let shi := if smin > smax then smin else smax
  let sx := draw slo shi d.us
  let sy := if cfg.preserve_aspect then sx else draw slo shi d.usy
  let rot :=
    if cfg.disable_rot then none
    else
      let rlo := if cfg.min_rot > cfg.max_rot then cfg.max_rot else cfg.min_rot
      let rhi := if cfg.min_rot > cfg.max_rot then cfg.min_rot else cfg.max_rot
      some (draw rlo rhi d.urot)
  { x := draw xlo xhi d.ux, y := draw ylo yhi d.uy,
    sx := sx, sy := sy, rot := rot }

/-! ### Helper lemmas about the extension filter -/

theorem suffixFromLastDot_append_some (l1 l2 s : List Char)
    (h : suffixFromLastDot l2 = some s) :
    suffixFromLastDot (l1 ++ l2) = some s := by
  induction l1 with
  | nil => simpa using h
  | cons c cs ih => simp [suffixFromLastDot, ih]

theorem suffixFromLastDot_append_none (l1 l2 : List Char)
    (h : suffixFromLastDot l2 = none) :
    suffixFromLastDot (l1 ++ l2) = (suffixFromLastDot l1).map (· ++ l2) := by
  induction l1 with
  | nil => simp [h, suffixFromLastDot]
  | cons c cs ih =>
    cases h1 : suffixFromLastDot cs with
    | some s =>
      simp [suffixFromLastDot, ih, h1]
    | none =>
      simp only [List.cons_append, suffixFromLastDot, List.append_eq, ih, h1,
        Option.map_none]
      by_cases hc : c = '.' <;> simp [hc]

theorem slash_not_mem_MEDIA_EXTS : ∀ e ∈ MEDIA_EXTS, '/' ∉ e := by decide

theorem asciiToLower_slash : asciiToLower '/' = '/' := by decide

/-- A candidate extension containing a path separator is never in the
allow-list, before or after lower-casing. -/
theorem contains_slash_not_media (ext : List Char) (h : '/' ∈ ext) :
    decide (ext.map asciiToLower ∈ MEDIA_EXTS) = false := by
  have hmem : '/' ∈ ext.map asciiToLower := by
    refine List.mem_map.2 ⟨'/', h, asciiToLower_slash⟩
  rcases Decidable.em (ext.map asciiToLower ∈ MEDIA_EXTS) with hin | hout
  · exact absurd hmem (slash_not_mem_MEDIA_EXTS _ hin)
  · simpa using hout

/-- Key lemma: the extension test on the full path `folder ++ "/" ++ name`
agrees with the extension test on the bare file name. When the name has
a dot, the last dot of the full path is the last dot of the name; when
it does not, any dot found lies in the folder part and the resulting
suffix contains the separator `/`, which no allow-listed extension
does. -/
theorem has_media_ext_append (folder name : List Char) :
    has_media_ext (folder ++ '/' :: name) = has_media_ext name := by
  cases h : suffixFromLastDot name with
  | some s =>
    have h2 : suffixFromLastDot ('/' :: name) = some s := by
      simp [suffixFromLastDot, h]
    rw [has_media_ext, suffixFromLastDot_append_some folder _ _ h2,
      has_media_ext, h]
  | none =>
    have h2 : suffixFromLastDot ('/' :: name) = none := by
      simp [suffixFromLastDot, h]
    rw [has_media_ext, suffixFromLastDot_append_none folder _ h2,
      has_media_ext, h]
    cases h3 : suffixFromLastDot folder with
    | none => simp
    | some s =>
      simp only [Option.map_some]
      exact contains_slash_not_media _ (by simp)

/-! ### Helper lemmas about the spawn pipeline -/

theorem spawn_one_createCalls (cfg : SpawnConfig) (r : UnitReq)
    (st : SpawnState) :
    (spawn_one cfg r st).1.createCalls = st.createCalls + 1 := by
  simp only [spawn_one]
  split_ifs <;> simp

theorem spawn_one_active_extends (cfg : SpawnConfig) (r : UnitReq)
    (st : SpawnState) :
    ∃ t, (spawn_one cfg r st).1.active_items = st.active_items ++ t := by
  simp only [spawn_one]
  split_ifs
  · exact ⟨[], by simp⟩
  · exact ⟨[], by simp⟩
  all_goals exact ⟨[st.uid + 1], by simp⟩

theorem spawn_one_ok (cfg : SpawnConfig) (r : UnitReq) (st : SpawnState)
    (h1 : r.createOk = true) (h2 : r.addOk = true) :
    (spawn_one cfg r st).1.active_items = st.active_items ++ [st.uid + 1]
      ∧ (spawn_one cfg r st).2 = true := by
  simp only [spawn_one, h1, h2]
  split_ifs <;> simp_all

theorem spawn_loop_createCalls (cfg : SpawnConfig) (reqs : List UnitReq)
    (st : SpawnState) :
    (spawn_loop cfg reqs st).1.createCalls
      = st.createCalls + reqs.length := by
  induction reqs generalizing st with
  | nil => rfl
  | cons r rest ih =>
    simp only [spawn_loop, List.length_cons]
    rw [ih, spawn_one_createCalls]
    omega

theorem spawn_loop_active_extends (cfg : SpawnConfig) (reqs : List UnitReq)
    (st : SpawnState) :
    ∃ t, (spawn_loop cfg reqs st).1.active_items = st.active_items ++ t := by
  induction reqs generalizing st with
  | nil => exact ⟨[], by simp [spawn_loop]⟩
  | cons r rest ih =>
    obtain ⟨t1, h1⟩ := spawn_one_active_extends cfg r st
    obtain ⟨t2, h2⟩ := ih (spawn_one cfg r st).1
    exact ⟨t1 ++ t2, by simp [spawn_loop, h2, h1]⟩

theorem spawn_loop_all_ok (cfg : SpawnConfig) (reqs : List UnitReq)
    (st : SpawnState)
    (h : ∀ r ∈ reqs, r.createOk = true ∧ r.addOk = true) :
    (spawn_loop cfg reqs st).1.active_items.length
        = st.active_items.length + reqs.length
      ∧ (spawn_loop cfg reqs st).2 = reqs.length := by
  induction reqs generalizing st with
  | nil => exact ⟨rfl, rfl⟩
  | cons r rest ih =>
    obtain ⟨h1, h2⟩ := h r (List.mem_cons_self r rest)
    obtain ⟨ha, hs⟩ := spawn_one_ok cfg r st h1 h2
    obtain ⟨iha, ihs⟩ := ih (spawn_one cfg r st).1
      (fun q hq => h q (List.mem_cons_of_mem r hq))
    constructor
    · simp only [spawn_loop]
      rw [iha, ha]
      simp
      omega
    · simp only [spawn_loop]
      rw [ihs, hs]
      simp [Nat.add_comm]

/-! ### Claim theorems -/

/-- C1: every `do_spawn` call that begins with the active-item count at
or above `max_active` materializes zero units and returns with the state
(in particular the active-item registry) unchanged. -/
theorem spawn_at_capacity_is_noop (cfg : SpawnConfig)
    (file_list : List (List Char)) (sceneOk : Bool)
    (host : Nat → Bool × Bool) (picks : Nat → Nat) (st : SpawnState)
    (h : cfg.max_active ≤ (st.active_items.length : Int)) :
    do_spawn cfg file_list sceneOk host picks st = (st, 0) := by
  unfold do_spawn
  split_ifs with h1 <;> rfl

/-- Witness for C1: the spec scenario — `max_active = 2`, two items
already active, `spawn_count = 1`: the spawn succeeds zero times and the
active count stays 2. -/
theorem spawn_at_capacity_is_noop_witness :
    ((2 : Int) ≤ (([7, 9] : List Nat).length : Int))
    ∧ do_spawn ⟨1, 2, true, false⟩ [['a', '.', 'm', 'p', '4']] true
        (fun _ => (true, true)) (fun _ => 0) ⟨[7, 9], 0, [], 0, 0, 0⟩
      = (⟨[7, 9], 0, [], 0, 0, 0⟩, 0) :=
  ⟨by decide,
   spawn_at_capacity_is_noop ⟨1, 2, true, false⟩ [['a', '.', 'm', 'p', '4']]
     true (fun _ => (true, true)) (fun _ => 0) ⟨[7, 9], 0, [], 0, 0, 0⟩
     (by decide)⟩

/-- C3: with an empty media catalog, `do_spawn` returns zero successes
and leaves the state untouched — in particular no `obs_source_create`
call, no `obs_scene_add` call, and no change to the active-item
registry. -/
theorem spawn_empty_catalog_is_noop (cfg : SpawnConfig) (sceneOk : Bool)
    (host : Nat → Bool × Bool) (picks : Nat → Nat) (st : SpawnState) :
    do_spawn cfg [] sceneOk host picks st = (st, 0) := by
  unfold do_spawn
  simp

/-- C7: the registry removal performed by `on_media_ended` is
idempotent — the removed id is gone after one call, removing an absent
id is a no-op, and a second removal of the same id changes nothing, so a
duplicated completion signal does not corrupt the registry. -/
theorem unregister_idempotent (item : Nat) (v : List Nat) :
    (item ∉ unregister item v)
    ∧ (item ∉ v → unregister item v = v)
    ∧ unregister item (unregister item v) = unregister item v := by
  refine ⟨?_, ?_, ?_⟩
  · simp [unregister, List.mem_filter]
  · intro h
    rw [unregister, List.filter_eq_self]
    intro a ha
    simp only [decide_eq_true_eq]
    intro heq
    exact h (heq ▸ ha)
  · simp [unregister, List.filter_filter]

/-- Witness for C7: removing 3 from `[1, 3, 2]` leaves no 3, removing
the absent 4 changes nothing, and a second removal of 3 is a no-op. -/
theorem unregister_idempotent_witness :
    (3 ∉ unregister 3 [1, 3, 2])
    ∧ unregister 4 [1, 3, 2] = [1, 3, 2]
    ∧ unregister 3 (unregister 3 [1, 3, 2]) = unregister 3 [1, 3, 2] :=
  ⟨(unregister_idempotent 3 [1, 3, 2]).1,
   (unregister_idempotent 4 [1, 3, 2]).2.1 (by decide),
   (unregister_idempotent 3 [1, 3, 2]).2.2⟩

/-- C9: when the directory cannot be opened (`os_opendir` fails), the
catalog refresh yields an empty file list regardless of what the
previous list held — the previous contents are discarded by the initial
`clear()`, not preserved. -/
theorem refresh_unreadable_dir_yields_empty (folder : List Char)
    (prev : List (List Char)) :
    update_file_list folder prev none = [] := by
  unfold update_file_list
  split_ifs <;> rfl

/-- C4: for a readable directory, the catalog refresh keeps exactly the
entries that are not directories and whose file-name extension (suffix
from the last dot of the name, lower-cased) is in the allow-list, each
contributing its full path — i.e. the filter the code applies to the full path
coincides with the filter the spec describes on over the bare file name. -/
theorem refresh_filters_by_name_ext (folder : List Char)
    (hne : folder ≠ []) (prev : List (List Char)) (ents : List DirEnt) :
    update_file_list folder prev (some ents)
      = ((ents.filter fun e => !e.directory && has_media_ext e.d_name).map
          fun e => folder ++ '/' :: e.d_name) := by
  unfold update_file_list
  simp only [hne, if_false]
  induction ents with
  | nil => rfl
  | cons e rest ih =>
    simp only [has_media_ext_append] at ih ⊢
    by_cases hd : e.directory <;>
      by_cases hx : has_media_ext e.d_name <;>
        simp [List.filterMap_cons, List.filter_cons, hd, hx, ih]

/-- Witness for C4: the spec scenario — a folder `f` holding `a.mp4`,
`b.txt`, `c.png` refreshes to exactly `f/a.mp4` and `f/c.png`. -/
theorem refresh_filters_by_name_ext_witness :
    (['f'] ≠ ([] : List Char))
    ∧ update_file_list ['f'] []
        (some [⟨['a', '.', 'm', 'p', '4'], false⟩,
               ⟨['b', '.', 't', 'x', 't'], false⟩,
               ⟨['c', '.', 'p', 'n', 'g'], false⟩])
      = [['f', '/', 'a', '.', 'm', 'p', '4'],
         ['f', '/', 'c', '.', 'p', 'n', 'g']] := by
  refine ⟨by decide, ?_⟩
  rw [refresh_filters_by_name_ext ['f'] (by decide) []
    [⟨['a', '.', 'm', 'p', '4'], false⟩,
     ⟨['b', '.', 't', 'x', 't'], false⟩,
     ⟨['c', '.', 'p', 'n', 'g'], false⟩]]
  decide

/-- C10: a hidden file whose whole name is an allow-listed extension,
such as `.mp4`, passes the extension test (the last dot is at position
zero of the name, so the whole name is taken as the extension) and is
included in the refreshed catalog. -/
theorem hidden_ext_file_included (folder : List Char) (hne : folder ≠ [])
    (prev : List (List Char)) (ents : List DirEnt)
    (hmem : (⟨['.', 'm', 'p', '4'], false⟩ : DirEnt) ∈ ents) :
    has_media_ext (folder ++ '/' :: ['.', 'm', 'p', '4']) = true
    ∧ (folder ++ '/' :: ['.', 'm', 'p', '4'])
        ∈ update_file_list folder prev (some ents) := by
  have hext : has_media_ext (folder ++ '/' :: ['.', 'm', 'p', '4']) = true := by
    rw [has_media_ext_append]
    decide
  refine ⟨hext, ?_⟩
  unfold update_file_list
  simp only [hne, if_false]
  refine List.mem_filterMap.2 ⟨⟨['.', 'm', 'p', '4'], false⟩, hmem, ?_⟩
  simp [hext]

/-- Witness for C10: in a folder `f` whose listing has the single
non-directory entry `.mp4`, the refreshed catalog contains `f/.mp4`. -/
theorem hidden_ext_file_included_witness :
    (['f'] ≠ ([] : List Char))
    ∧ (⟨['.', 'm', 'p', '4'], false⟩ : DirEnt)
        ∈ [(⟨['.', 'm', 'p', '4'], false⟩ : DirEnt)]
    ∧ (['f'] ++ '/' :: ['.', 'm', 'p', '4'])
        ∈ update_file_list ['f'] [] (some [⟨['.', 'm', 'p', '4'], false⟩]) :=
  ⟨by decide, by decide,
   (hidden_ext_file_included ['f'] (by decide) []
     [⟨['.', 'm', 'p', '4'], false⟩] (by decide)).2⟩

/-- C5: a unit whose materialization fails (source creation fails, or
adding to the scene fails) registers nothing in the active-item registry
and attaches no completion subscription and reports failure; the batch
loop still attempts every unit (one creation attempt per unit,
regardless of earlier failures) and never rolls back — the initial
active items stay, with the survivors of the batch only appended after
them. -/
theorem unit_failure_skipped_batch_continues (cfg : SpawnConfig)
    (r : UnitReq) (reqs : List UnitReq) (st : SpawnState)
    (h : r.createOk = false ∨ r.addOk = false) :
    ((spawn_one cfg r st).1.active_items = st.active_items
      ∧ (spawn_one cfg r st).1.subscriptions = st.subscriptions
      ∧ (spawn_one cfg r st).2 = false)
    ∧ (spawn_loop cfg reqs st).1.createCalls = st.createCalls + reqs.length
    ∧ ∃ t, (spawn_loop cfg reqs st).1.active_items
        = st.active_items ++ t := by
  refine ⟨?_, spawn_loop_createCalls cfg reqs st,
    spawn_loop_active_extends cfg reqs st⟩
  rcases h with h | h
  · simp [spawn_one, h]
  · by_cases h1 : r.createOk = false
    · simp [spawn_one, h1]
    · simp [spawn_one, h1, h]

/-- Witness for C5: a unit whose scene-add fails, inside a batch of
three units whose middle unit fails — the failed unit registers nothing,
all three units are attempted, and the registry only grows. -/
theorem unit_failure_skipped_batch_continues_witness :
    ((⟨['a'], true, false⟩ : UnitReq).createOk = false
      ∨ (⟨['a'], true, false⟩ : UnitReq).addOk = false)
    ∧ ((spawn_one ⟨1, 5, true, false⟩ ⟨['a'], true, false⟩
          ⟨[1], 1, [], 1, 1, 0⟩).1.active_items = [1]
      ∧ (spawn_loop ⟨1, 5, true, false⟩
          [⟨['a'], true, true⟩, ⟨['a'], true, false⟩, ⟨['a'], true, true⟩]
          ⟨[1], 1, [], 1, 1, 0⟩).1.createCalls = 1 + 3) := by
  have h := unit_failure_skipped_batch_continues ⟨1, 5, true, false⟩
    ⟨['a'], true, false⟩
    [⟨['a'], true, true⟩, ⟨['a'], true, false⟩, ⟨['a'], true, true⟩]
    ⟨[1], 1, [], 1, 1, 0⟩ (Or.inr rfl)
  exact ⟨Or.inr rfl, h.1.1, h.2.1⟩

/-- C2: capacity is consulted once per call, before the unit loop, which
then attempts `max 1 spawn_count` units; so a call that starts strictly
below the cap and whose materializations all succeed ends with at most
`(max_active - 1) + max 1 spawn_count` active items, and (when the
catalog is non-empty and a scene exists) with exactly
`max 1 spawn_count` more than it started with — the cap can be exceeded
by up to `spawn_count - 1` within one batch. -/
theorem capacity_checked_once_per_call (cfg : SpawnConfig)
    (file_list : List (List Char)) (sceneOk : Bool)
    (host : Nat → Bool × Bool) (picks : Nat → Nat) (st : SpawnState)
    (hcap : (st.active_items.length : Int) < cfg.max_active)
    (hok : ∀ i, host i = (true, true)) :
    (((do_spawn cfg file_list sceneOk host picks st).1.active_items.length : Int)
        ≤ (cfg.max_active - 1) + max 1 cfg.spawn_count)
    ∧ (file_list ≠ [] → sceneOk = true →
        ((do_spawn cfg file_list sceneOk host picks st).1.active_items.length : Int)
          = (st.active_items.length : Int) + max 1 cfg.spawn_count) := by
  have hmax1 : (1 : Int) ≤ max 1 cfg.spawn_count := le_max_left 1 _
  have hcast : (((max 1 cfg.spawn_count).toNat : Int)) = max 1 cfg.spawn_count :=
    Int.toNat_of_nonneg (le_trans zero_le_one hmax1)
  unfold do_spawn
  split_ifs with h1 h2 h3
  · exact ⟨by simp; omega, fun hfl _ => absurd h1 hfl⟩
  · exact absurd h2 (not_le.2 hcap)
  · refine ⟨by simp; omega, fun _ hscene => ?_⟩
    rw [hscene] at h3
    exact absurd h3 (by simp)
  · have hall : ∀ q ∈ (List.range (max 1 cfg.spawn_count).toNat).map
        (fun i => { file := file_list.getD (picks i % file_list.length) []
                    createOk := (host i).1
                    addOk := (host i).2 : UnitReq }),
        q.createOk = true ∧ q.addOk = true := by
      intro q hq
      obtain ⟨i, _, rfl⟩ := List.mem_map.1 hq
      simp [hok i]
    have hlen := spawn_loop_all_ok cfg _ st hall
    rw [List.length_map, List.length_range] at hlen
    constructor
    · rw [hlen.1]
      push_cast
      rw [hcast]
      omega
    · intro _ _
      rw [hlen.1]
      push_cast
      rw [hcast]

/-- Witness for C2: the overshoot scenario — `max_active = 5`, 4 already
active, `spawn_count = 3`, everything succeeds: the call ends with
7 = (5 - 1) + 3 active items, exceeding the cap by `spawn_count - 1`. -/
theorem capacity_checked_once_per_call_witness :
    ((([2, 4, 6, 8] : List Nat).length : Int) < 5)
    ∧ (((do_spawn ⟨3, 5, true, false⟩ [['a', '.', 'm', 'p', '4']] true
          (fun _ => (true, true)) (fun _ => 0)
          ⟨[2, 4, 6, 8], 0, [], 0, 0, 0⟩).1.active_items.length : Int)
        ≤ (5 - 1) + max 1 3)
    ∧ (((do_spawn ⟨3, 5, true, false⟩ [['a', '.', 'm', 'p', '4']] true
          (fun _ => (true, true)) (fun _ => 0)
          ⟨[2, 4, 6, 8], 0, [], 0, 0, 0⟩).1.active_items.length : Int)
        = (([2, 4, 6, 8] : List Nat).length : Int) + max 1 3) := by
  have h := capacity_checked_once_per_call ⟨3, 5, true, false⟩
    [['a', '.', 'm', 'p', '4']] true (fun _ => (true, true)) (fun _ => 0)
    ⟨[2, 4, 6, 8], 0, [], 0, 0, 0⟩ (by decide) (fun i => rfl)
  exact ⟨by decide, h.1, h.2 (by decide) rfl⟩

/-! ### Helper lemmas about the transform sampler -/

theorem swap_lo (a b : ℚ) : (if a > b then b else a) = min a b := by
  rcases le_or_lt a b with h | h
  · simp [not_lt.2 h, min_eq_left h]
  · simp [h, min_eq_right (le_of_lt h)]

theorem swap_hi (a b : ℚ) : (if a > b then a else b) = max a b := by
  rcases le_or_lt a b with h | h
  · simp [not_lt.2 h, max_eq_right h]
  · simp [h, max_eq_left (le_of_lt h)]

theorem draw_mem (lo hi u : ℚ) (hle : lo ≤ hi) (h0 : 0 ≤ u) (h1 : u ≤ 1) :
    lo ≤ draw lo hi u ∧ draw lo hi u ≤ hi := by
  unfold draw
  constructor
  · nlinarith
  · nlinarith

/-- C6: under unit draws in `[0,1]`, the sampled placement stays inside
the normalized ranges — position inside the resolved clamp rectangle
(non-positive minimum edge defaults to 0, non-positive maximum edge to
the canvas extent, min > max swapped per axis), both scale factors
inside the swapped `[min_scale, max_scale] / 100`, and, when rotation is
enabled, rotation inside the swapped `[min_rot, max_rot]`. -/
theorem transform_within_normalized_ranges (cfg : TransformConfig)
    (cw ch : ℚ) (d : Draws)
    (hux0 : 0 ≤ d.ux) (hux1 : d.ux ≤ 1)
    (huy0 : 0 ≤ d.uy) (huy1 : d.uy ≤ 1)
    (hus0 : 0 ≤ d.us) (hus1 : d.us ≤ 1)
    (husy0 : 0 ≤ d.usy) (husy1 : d.usy ≤ 1)
    (hurot0 : 0 ≤ d.urot) (hurot1 : d.urot ≤ 1) :
    (min (if cfg.min_x > 0 then (cfg.min_x : ℚ) else 0)
         (if cfg.max_x > 0 then (cfg.max_x : ℚ) else cw)
       ≤ (apply_random_transform cfg cw ch d).x
     ∧ (apply_random_transform cfg cw ch d).x
       ≤ max (if cfg.min_x > 0 then (cfg.min_x : ℚ) else 0)
             (if cfg.max_x > 0 then (cfg.max_x : ℚ) else cw))
    ∧ (min (if cfg.min_y > 0 then (cfg.min_y : ℚ) else 0)
           (if cfg.max_y > 0 then (cfg.max_y : ℚ) else ch)
         ≤ (apply_random_transform cfg cw ch d).y
       ∧ (apply_random_transform cfg cw ch d).y
         ≤ max (if cfg.min_y > 0 then (cfg.min_y : ℚ) else 0)
               (if cfg.max_y > 0 then (cfg.max_y : ℚ) else ch))
    ∧ (min (cfg.min_scale / 100) (cfg.max_scale / 100)
         ≤ (apply_random_transform cfg cw ch d).sx
       ∧ (apply_random_transform cfg cw ch d).sx
         ≤ max (cfg.min_scale / 100) (cfg.max_scale / 100))
    ∧ (min (cfg.min_scale / 100) (cfg.max_scale / 100)
         ≤ (apply_random_transform cfg cw ch d).sy
       ∧ (apply_random_transform cfg cw ch d).sy
         ≤ max (cfg.min_scale / 100) (cfg.max_scale / 100))
    ∧ (cfg.disable_rot = false →
        ∃ r, (apply_random_transform cfg cw ch d).rot = some r
          ∧ min cfg.min_rot cfg.max_rot ≤ r
          ∧ r ≤ max cfg.min_rot cfg.max_rot) := by
  simp only [apply_random_transform, swap_lo, swap_hi]
  refine ⟨?_, ?_, ?_, ?_, ?_⟩
  · exact draw_mem _ _ _ (min_le_max) hux0 hux1
  · exact draw_mem _ _ _ (min_le_max) huy0 huy1
  · exact draw_mem _ _ _ (min_le_max) hus0 hus1
  · by_cases hp : cfg.preserve_aspect
    · simp only [hp, if_true]
      exact draw_mem _ _ _ (min_le_max) hus0 hus1
    · simp only [hp, if_false]
      exact draw_mem _ _ _ (min_le_max) husy0 husy1
  · intro hrot
    simp only [hrot, if_false]
    exact ⟨_, rfl, draw_mem _ _ _ (min_le_max) hurot0 hurot1⟩

/-- Witness for C6: the spec example `min_x = 500`, `max_x = 100` on a
1920×1080 canvas — with all unit draws at 1/2 the sampled position lands
inside the swapped effective range `[100, 500]`, and scale and rotation
land inside their swapped ranges too. -/
theorem transform_within_normalized_ranges_witness :
    ((100 : ℚ)
        ≤ (apply_random_transform ⟨500, 0, 100, 0, 50, 150, true, -180, 180, false⟩
            1920 1080 ⟨1/2, 1/2, 1/2, 1/2, 1/2⟩).x
      ∧ (apply_random_transform ⟨500, 0, 100, 0, 50, 150, true, -180, 180, false⟩
            1920 1080 ⟨1/2, 1/2, 1/2, 1/2, 1/2⟩).x ≤ 500)
    ∧ ∃ r, (apply_random_transform ⟨500, 0, 100, 0, 50, 150, true, -180, 180, false⟩
            1920 1080 ⟨1/2, 1/2, 1/2, 1/2, 1/2⟩).rot = some r
        ∧ (-180 : ℚ) ≤ r ∧ r ≤ 180 := by
  have h := transform_within_normalized_ranges
    ⟨500, 0, 100, 0, 50, 150, true, -180, 180, false⟩ 1920 1080
    ⟨1/2, 1/2, 1/2, 1/2, 1/2⟩
    (by norm_num) (by norm_num) (by norm_num) (by norm_num) (by norm_num)
    (by norm_num) (by norm_num) (by norm_num) (by norm_num) (by norm_num)
  have hx := h.1
  have hr := h.2.2.2.2 rfl
  norm_num at hx hr
  exact ⟨hx, hr⟩

/-- C8: when `preserve_aspect` is set, the sampled Y scale is exactly
the sampled X scale (a single draw reused for both axes); when it is
not set, the Y scale is its own independent draw from the same swapped
scale range. -/
theorem preserve_aspect_scale_equal (cfg : TransformConfig) (cw ch : ℚ)
    (d : Draws) :
    (cfg.preserve_aspect = true →
      (apply_random_transform cfg cw ch d).sy
        = (apply_random_transform cfg cw ch d).sx)
    ∧ (cfg.preserve_aspect = false →
      (apply_random_transform cfg cw ch d).sy
        = draw (min (cfg.min_scale / 100) (cfg.max_scale / 100))
               (max (cfg.min_scale / 100) (cfg.max_scale / 100)) d.usy) := by
  constructor <;> intro h <;>
    simp [apply_random_transform, swap_lo, swap_hi, h]

/-- Witness for C8: with aspect preservation on, Y scale equals X scale
at a concrete configuration; with it off, Y scale is the independent
`usy` draw from the same range. -/
theorem preserve_aspect_scale_equal_witness :
    ((apply_random_transform ⟨0, 0, 0, 0, 50, 150, true, 0, 0, true⟩
        1920 1080 ⟨0, 0, 1/4, 3/4, 0⟩).sy
      = (apply_random_transform ⟨0, 0, 0, 0, 50, 150, true, 0, 0, true⟩
        1920 1080 ⟨0, 0, 1/4, 3/4, 0⟩).sx)
    ∧ ((apply_random_transform ⟨0, 0, 0, 0, 50, 150, false, 0, 0, true⟩
        1920 1080 ⟨0, 0, 1/4, 3/4, 0⟩).sy
      = draw (min ((50 : ℚ) / 100) ((150 : ℚ) / 100))
             (max ((50 : ℚ) / 100) ((150 : ℚ) / 100)) (3/4)) :=
  ⟨(preserve_aspect_scale_equal ⟨0, 0, 0, 0, 50, 150, true, 0, 0, true⟩
      1920 1080 ⟨0, 0, 1/4, 3/4, 0⟩).1 rfl,
   (preserve_aspect_scale_equal ⟨0, 0, 0, 0, 50, 150, false, 0, 0, true⟩
      1920 1080 ⟨0, 0, 1/4, 3/4, 0⟩).2 rfl⟩

end RandomMedia
